import Mathlib

/-!
Shallow embedding of the jianzhnie/nlp-toolkit repository pieces under test:
the GloVe training script (examples/language_model/glove.py), the custom RNN
cells (nlptoolkit/models/rnn/rnn.py) and the GRU sequence-to-sequence driver
(nlptoolkit/models/seq2seq/rnn_mt.py).  Tensors are embedded as lists,
index functions and Mathlib matrices over the reals; fallible code returns
Except values.
-/

namespace Glove

/-- Row-wise dot product, as in torch.sum(a * b, dim=1) for one row. -/
noncomputable def dotList (a b : List ℝ) : ℝ :=
  (List.zipWith (fun x y => x * y) a b).sum

/-- Arithmetic mean of a list of reals, as in Tensor.mean(). -/
noncomputable def listMean (l : List ℝ) : ℝ := l.sum / l.length

/-- torch.clamp(x, max = m). -/
noncomputable def clampMax (x m : ℝ) : ℝ := min x m

/-- Hyperparameter m_max = 100 from the script. -/
noncomputable def m_max : ℝ := 100

/-- Hyperparameter alpha = 0.75 from the script. -/
noncomputable def alpha : ℝ := 0.75

/-- Modelled from the spec: GloveModel lives in
nlptoolkit/models/word2vec/glove.py, which is not under src/.  Per the
script comments it holds a word-embedding table with per-token biases and a
context-embedding table with per-token biases; forward_w and forward_c are
row lookups returning (embedding, bias). -/
structure GloveModel where
  w_embeddings : ℕ → List ℝ
  w_biases : ℕ → ℝ
  c_embeddings : ℕ → List ℝ
  c_biases : ℕ → ℝ

/-- Modelled from the spec: row lookup of the word-embedding table. -/
def GloveModel.forward_w (m : GloveModel) (w : ℕ) : List ℝ × ℝ :=
  (m.w_embeddings w, m.w_biases w)

/-- Modelled from the spec: row lookup of the context-embedding table. -/
def GloveModel.forward_c (m : GloveModel) (c : ℕ) : List ℝ × ℝ :=
  (m.c_embeddings c, m.c_biases c)

/-- The weighted batch loss computed by one training step of
examples/language_model/glove.py (lines 48-66): per sample, the squared
regression residual against log(count), weighted by
clamp((count/m_max)^alpha, max=1); the batch loss is the mean.
A batch element is a (word, context, count) triple. -/
noncomputable def gloveBatchLoss (model : GloveModel)
    (batch : List (ℕ × ℕ × ℝ)) : ℝ :=
  listMean (batch.map fun x =>
    let word_embeds := (model.forward_w x.1).1
    let word_biases := (model.forward_w x.1).2
    let context_embeds := (model.forward_c x.2.1).1
    let context_biases := (model.forward_c x.2.1).2
    let log_counts := Real.log x.2.2
    let weight_factor := clampMax ((x.2.2 / m_max) ^ alpha) 1
    let loss := (dotList word_embeds context_embeds + word_biases +
      context_biases - log_counts) ^ 2
    weight_factor * loss)

/-- The per-sample loss exactly as the specification words it:
(dot(word_embed, context_embed) + word_bias + context_bias - log(count))^2. -/
noncomputable def specSampleLoss (we : List ℝ) (wb : ℝ) (ce : List ℝ)
    (cb : ℝ) (count : ℝ) : ℝ :=
  (dotList we ce + wb + cb - Real.log count) ^ 2

/-- The per-sample weight exactly as the specification words it:
min((count / 100)^0.75, 1). -/
noncomputable def specSampleWeight (count : ℝ) : ℝ :=
  min ((count / 100) ^ (0.75 : ℝ)) 1

/-- The batch objective exactly as the specification words it: the mean over
the batch of weight * loss. -/
noncomputable def specBatchLoss (model : GloveModel)
    (batch : List (ℕ × ℕ × ℝ)) : ℝ :=
  listMean (batch.map fun x =>
    specSampleWeight x.2.2 *
      specSampleLoss (model.w_embeddings x.1) (model.w_biases x.1)
        (model.c_embeddings x.2.1) (model.c_biases x.2.1) x.2.2)

end Glove

namespace Glove

/-- Modelled from the spec: save_pretrained (nlptoolkit/data/utils/utils.py,
not under src/) writes a plain-text file pairing each vocabulary token with
its embedding vector, one token per line.  The file is embedded as its name
together with the list of (token, vector) lines. -/
def save_pretrained (vocab : List String) (embeds : ℕ → List ℝ)
    (path : String) : String × List (String × List ℝ) :=
  (path, (List.range vocab.length).map fun i => (vocab.getD i "", embeds i))

/-- The serialization step of examples/language_model/glove.py (lines 72-74):
combined_embeds = w_embeddings.weight + c_embeddings.weight (elementwise),
then save_pretrained(vocab, combined_embeds, "glove.vec"). -/
noncomputable def gloveSerialize (model : GloveModel) (vocab : List String) :
    String × List (String × List ℝ) :=
  let combined_embeds := fun i =>
    List.zipWith (fun a b => a + b) (model.w_embeddings i)
      (model.c_embeddings i)
  save_pretrained vocab combined_embeds "glove.vec"

end Glove

namespace Seq2Seq

variable {Src EncOut Token Hidden Pred : Type}

/-- State threaded through the decoding loop of RNNSeq2Seq.forward: the
current decoder input token, the current hidden state, the outputs tensor
(a list with one slot per target position), and the log of the argument
triples (input, hidden, context) passed to self.decoder. -/
structure DecState (Token Hidden Pred : Type) where
  input : Token
  hidden : Hidden
  outputs : List Pred
  calls : List (Token × Hidden × Hidden)

/-- One iteration of the loop body of RNNSeq2Seq.forward (rnn_mt.py lines
159-176) at step t: call the decoder, store the prediction in outputs[t],
compare the random draw of this step with teacher_forcing_ratio and pick
the next input accordingly. -/
def rnnStep [Inhabited Token]
    (dec : Token → Hidden → Hidden → Pred × Hidden) (amax : Pred → Token)
    (context : Hidden) (trg : List Token) (tfProb : ℚ) (draws : ℕ → ℚ)
    (st : DecState Token Hidden Pred) (t : ℕ) : DecState Token Hidden Pred :=
  let dres := dec st.input st.hidden context
  let output := dres.1
  let hidden := dres.2
  let outputs := st.outputs.set t output
  let top1 := amax output
  let input := if draws t < tfProb then trg.getD t default else top1
  ⟨input, hidden, outputs, st.calls ++ [(st.input, st.hidden, context)]⟩

/-- RNNSeq2Seq.forward (rnn_mt.py lines 135-178), instrumented with the call
log: outputs = zeros(trg_len, ...); context = final hidden state of the
encoder on src; hidden = context; input = trg[0]; then the loop runs over
t = 1 .. trg_len - 1.  The encoder, decoder and vocabulary argmax are the
framework-backed modules, passed as functions; draws enumerates the values
produced by random.random(), and zeroP is a zero output slice. -/
def forwardTrace [Inhabited Token] (encoder : Src → EncOut × Hidden)
    (dec : Token → Hidden → Hidden → Pred × Hidden) (amax : Pred → Token)
    (zeroP : Pred) (src : Src) (trg : List Token) (tfProb : ℚ)
    (draws : ℕ → ℚ) : DecState Token Hidden Pred :=
  let trg_len := trg.length
  let outputs := List.replicate trg_len zeroP
  let context := (encoder src).2
  let hidden := context
  let input := trg.headD default
  (List.range' 1 (trg_len - 1)).foldl
    (rnnStep dec amax context trg tfProb draws) ⟨input, hidden, outputs, []⟩

/-- The value RNNSeq2Seq.forward actually returns: the outputs tensor. -/
def forward [Inhabited Token] (encoder : Src → EncOut × Hidden)
    (dec : Token → Hidden → Hidden → Pred × Hidden) (amax : Pred → Token)
    (zeroP : Pred) (src : Src) (trg : List Token) (tfProb : ℚ)
    (draws : ℕ → ℚ) : List Pred :=
  (forwardTrace encoder dec amax zeroP src trg tfProb draws).outputs

/-- The sequence of decoder-call argument triples produced by running the
loop over a given index list from a given (input, hidden) pair; used to
characterise the call log of forwardTrace. -/
def callTrace [Inhabited Token]
    (dec : Token → Hidden → Hidden → Pred × Hidden) (amax : Pred → Token)
    (context : Hidden) (trg : List Token) (tfProb : ℚ) (draws : ℕ → ℚ) :
    List ℕ → Token × Hidden → List (Token × Hidden × Hidden)
  | [], _ => []
  | t :: ts, p =>
    let dres := dec p.1 p.2 context
    let input := if draws t < tfProb then trg.getD t default else amax dres.1
    (p.1, p.2, context) ::
      callTrace dec amax context trg tfProb draws ts (input, dres.2)

end Seq2Seq

namespace RNN

/-- A dynamically shaped 2-D tensor: shape plus entry function. -/
structure Tensor2 where
  rows : ℕ
  cols : ℕ
  entry : ℕ → ℕ → ℝ

/-- input.new_zeros(r, c). -/
def zeros (r c : ℕ) : Tensor2 := ⟨r, c, fun _ _ => 0⟩

/-- A bias vector that may be absent (bias=False registers None). -/
def biasEntry (b : Option (ℕ → ℝ)) (j : ℕ) : ℝ :=
  match b with
  | some f => f j
  | none => 0

/-- x @ w.T + b, the linear map used by the cell functions: w has shape
(hidden_size, input_size) as in rnn.py, so entries contract over x.cols. -/
noncomputable def linearT (x w : Tensor2) (b : Option (ℕ → ℝ)) : Tensor2 :=
  ⟨x.rows, w.rows, fun i j =>
    (∑ k ∈ Finset.range x.cols, x.entry i k * w.entry j k) + biasEntry b j⟩

/-- Entrywise addition (shapes agree at every use below). -/
noncomputable def addT (a b : Tensor2) : Tensor2 :=
  ⟨a.rows, a.cols, fun i j => a.entry i j + b.entry i j⟩

/-- Entrywise application of a scalar function. -/
def mapT (f : ℝ → ℝ) (a : Tensor2) : Tensor2 :=
  ⟨a.rows, a.cols, fun i j => f (a.entry i j)⟩

/-- F.relu. -/
noncomputable def reluFn (x : ℝ) : ℝ := max x 0

/-- F.tanh. -/
noncomputable def tanhFn (x : ℝ) : ℝ := Real.tanh x

/-- _get_activation_fn (rnn.py lines 21-28): return F.relu for "relu" and
F.tanh for "tanh"; any other string raises RuntimeError. -/
noncomputable def _get_activation_fn (activation : String) :
    Except String (ℝ → ℝ) :=
  if activation = "relu" then Except.ok reluFn
  else if activation = "tanh" then Except.ok tanhFn
  else Except.error ("activation should be relu/tanh, not " ++ activation)

/-- Modelled from the spec: RNNTanhCell lives in
nlptoolkit/models/rnn/function.py, which is not under src/; per the RNNCell
docstring it computes h2 = tanh(w_ih x + b_ih + w_hh h + b_hh). -/
noncomputable def RNNTanhCell (input hx w_ih w_hh : Tensor2)
    (b_ih b_hh : Option (ℕ → ℝ)) : Tensor2 :=
  mapT tanhFn (addT (linearT input w_ih b_ih) (linearT hx w_hh b_hh))

/-- Modelled from the spec: RNNReLUCell, the same recurrence with ReLU in
place of tanh. -/
noncomputable def RNNReLUCell (input hx w_ih w_hh : Tensor2)
    (b_ih b_hh : Option (ℕ → ℝ)) : Tensor2 :=
  mapT reluFn (addT (linearT input w_ih b_ih) (linearT hx w_hh b_hh))

/-- The four RuntimeError raise sites of rnn.py reachable from
RNNCell.forward; the first three report a shape mismatch. -/
inductive RNNError
  | inconsistentInputSize (got expected : ℕ)
  | batchMismatch (inputBatch hiddenBatch : ℕ)
  | inconsistentHiddenSize (got expected : ℕ)
  | unknownNonlinearity (s : String)
deriving DecidableEq

/-- Whether an error is one of the shape-mismatch RuntimeErrors. -/
def RNNError.isShape : RNNError → Bool
  | .inconsistentInputSize _ _ => true
  | .batchMismatch _ _ => true
  | .inconsistentHiddenSize _ _ => true
  | .unknownNonlinearity _ => false

/-- RNNCell (rnn.py lines 97-188): the sizes, the nonlinearity string and
the learnable parameters. -/
structure RNNCell where
  input_size : ℕ
  hidden_size : ℕ
  nonlinearity : String
  weight_ih : Tensor2
  weight_hh : Tensor2
  bias_ih : Option (ℕ → ℝ)
  bias_hh : Option (ℕ → ℝ)

/-- RNNCellBase.check_forward_input (rnn.py lines 79-83). -/
def RNNCell.check_forward_input (cell : RNNCell) (input : Tensor2) :
    Except RNNError Unit :=
  if input.cols ≠ cell.input_size then
    Except.error (.inconsistentInputSize input.cols cell.input_size)
  else Except.ok ()

/-- RNNCellBase.check_forward_hidden (rnn.py lines 85-94). -/
def RNNCell.check_forward_hidden (cell : RNNCell) (input hx : Tensor2) :
    Except RNNError Unit :=
  if input.rows ≠ hx.rows then
    Except.error (.batchMismatch input.rows hx.rows)
  else if hx.cols ≠ cell.hidden_size then
    Except.error (.inconsistentHiddenSize hx.cols cell.hidden_size)
  else Except.ok ()

/-- RNNCell.forward (rnn.py lines 166-188): check the input shape, default
hx to zeros, check the hidden shape, then dispatch on the nonlinearity
string, raising RuntimeError on an unknown one. -/
noncomputable def RNNCell.forward (cell : RNNCell) (input : Tensor2)
    (hx? : Option Tensor2) : Except RNNError Tensor2 :=
  match cell.check_forward_input input with
  | .error e => .error e
  | .ok _ =>
    let hx := hx?.getD (zeros input.rows cell.hidden_size)
    match cell.check_forward_hidden input hx with
    | .error e => .error e
    | .ok _ =>
      if cell.nonlinearity = "tanh" then
        .ok (RNNTanhCell input hx cell.weight_ih cell.weight_hh
          cell.bias_ih cell.bias_hh)
      else if cell.nonlinearity = "relu" then
        .ok (RNNReLUCell input hx cell.weight_ih cell.weight_hh
          cell.bias_ih cell.bias_hh)
      else .error (.unknownNonlinearity cell.nonlinearity)

/-- NaiveCustomRNN (rnn.py lines 31-67), its parameters as matrices. -/
structure NaiveCustomRNN (input_size hidden_size : ℕ) where
  W_xh : Matrix (Fin input_size) (Fin hidden_size) ℝ
  W_hh : Matrix (Fin hidden_size) (Fin hidden_size) ℝ
  b_h : Fin hidden_size → ℝ
  W_hq : Matrix (Fin hidden_size) (Fin hidden_size) ℝ
  b_q : Fin hidden_size → ℝ

/-- torch.mm. -/
noncomputable def mm {a b c : ℕ} (X : Matrix (Fin a) (Fin b) ℝ)
    (Y : Matrix (Fin b) (Fin c) ℝ) : Matrix (Fin a) (Fin c) ℝ :=
  Matrix.of fun i j => ∑ k, X i k * Y k j

/-- Broadcast addition of a bias row vector to every row. -/
noncomputable def rowAdd {a b : ℕ} (M : Matrix (Fin a) (Fin b) ℝ)
    (v : Fin b → ℝ) : Matrix (Fin a) (Fin b) ℝ :=
  Matrix.of fun i j => M i j + v j

/-- NaiveCustomRNN.forward (rnn.py lines 61-67): hx defaults to zeros;
hy = tanh(input @ W_xh + hx @ W_hh + b_h); out = hy @ W_hq + b_q; the
returned pair is (out, hy). -/
noncomputable def NaiveCustomRNN.forward {ni nh : ℕ}
    (m : NaiveCustomRNN ni nh) {batch : ℕ}
    (input : Matrix (Fin batch) (Fin ni) ℝ)
    (hx? : Option (Matrix (Fin batch) (Fin nh) ℝ)) :
    Matrix (Fin batch) (Fin nh) ℝ × Matrix (Fin batch) (Fin nh) ℝ :=
  let hx := hx?.getD 0
  let hy := (rowAdd (mm input m.W_xh + mm hx m.W_hh) m.b_h).map Real.tanh
  let out := rowAdd (mm hy m.W_hq) m.b_q
  (out, hy)

/-- The textbook Elman hidden-state update exactly as the claim words it:
tanh(X * W_xh + H * W_hh + b_h). -/
noncomputable def elmanHidden {ni nh : ℕ} (m : NaiveCustomRNN ni nh)
    {batch : ℕ} (X : Matrix (Fin batch) (Fin ni) ℝ)
    (H : Matrix (Fin batch) (Fin nh) ℝ) : Matrix (Fin batch) (Fin nh) ℝ :=
  (rowAdd (mm X m.W_xh + mm H m.W_hh) m.b_h).map Real.tanh

/-- The textbook Elman output exactly as the claim words it:
O = H2 * W_hq + b_q applied to the updated hidden state H2. -/
noncomputable def elmanOut {ni nh : ℕ} (m : NaiveCustomRNN ni nh)
    {batch : ℕ} (H2 : Matrix (Fin batch) (Fin nh) ℝ) :
    Matrix (Fin batch) (Fin nh) ℝ :=
  rowAdd (mm H2 m.W_hq) m.b_q

end RNN

namespace RNN

/-- With valid shapes, RNNCell.forward reduces to the nonlinearity
dispatch. -/
lemma forward_ok_shapes (cell : RNNCell) (input hx : Tensor2)
    (h1 : input.cols = cell.input_size) (h2 : hx.rows = input.rows)
    (h3 : hx.cols = cell.hidden_size) :
    cell.forward input (some hx) =
      if cell.nonlinearity = "tanh" then
        Except.ok (RNNTanhCell input hx cell.weight_ih cell.weight_hh
          cell.bias_ih cell.bias_hh)
      else if cell.nonlinearity = "relu" then
        Except.ok (RNNReLUCell input hx cell.weight_ih cell.weight_hh
          cell.bias_ih cell.bias_hh)
      else Except.error (.unknownNonlinearity cell.nonlinearity) := by
  simp [RNNCell.forward, RNNCell.check_forward_input,
    RNNCell.check_forward_hidden, h1, h2, h3]

/-- A wrong input width raises the first shape RuntimeError. -/
lemma forward_err_input (cell : RNNCell) (input : Tensor2)
    (hx? : Option Tensor2) (h1 : input.cols ≠ cell.input_size) :
    cell.forward input hx? =
      Except.error (.inconsistentInputSize input.cols cell.input_size) := by
  simp [RNNCell.forward, RNNCell.check_forward_input, h1]

/-- A batch mismatch raises the second shape RuntimeError. -/
lemma forward_err_batch (cell : RNNCell) (input hx : Tensor2)
    (h1 : input.cols = cell.input_size) (h2 : input.rows ≠ hx.rows) :
    cell.forward input (some hx) =
      Except.error (.batchMismatch input.rows hx.rows) := by
  simp [RNNCell.forward, RNNCell.check_forward_input,
    RNNCell.check_forward_hidden, h1, h2]

/-- A wrong hidden width raises the third shape RuntimeError. -/
lemma forward_err_hsize (cell : RNNCell) (input hx : Tensor2)
    (h1 : input.cols = cell.input_size) (h2 : input.rows = hx.rows)
    (h3 : hx.cols ≠ cell.hidden_size) :
    cell.forward input (some hx) =
      Except.error (.inconsistentHiddenSize hx.cols cell.hidden_size) := by
  simp [RNNCell.forward, RNNCell.check_forward_input,
    RNNCell.check_forward_hidden, h1, h2, h3]

end RNN

/-- C1: the GloVe training step of glove.py takes its gradient on the
weighted least-squares objective: per sample the loss is
(dot(word_embed, context_embed) + word_bias + context_bias - log count)^2,
the weight is min((count / 100)^0.75, 1), and the batch loss is the mean
over the batch of weight * loss. -/
theorem glove_batch_loss_matches_spec (model : Glove.GloveModel)
    (batch : List (ℕ × ℕ × ℝ)) (hpos : ∀ x ∈ batch, 0 < x.2.2) :
    Glove.gloveBatchLoss model batch = Glove.specBatchLoss model batch := rfl

/-- Witness for C1 at a one-sample batch with count 1. -/
theorem glove_batch_loss_matches_spec_witness :
    (∀ x ∈ ([((0 : ℕ), (0 : ℕ), (1 : ℝ))] : List (ℕ × ℕ × ℝ)), 0 < x.2.2) ∧
    Glove.gloveBatchLoss ⟨fun _ => [1], fun _ => 0, fun _ => [1], fun _ => 0⟩
        [(0, 0, 1)] =
      Glove.specBatchLoss ⟨fun _ => [1], fun _ => 0, fun _ => [1], fun _ => 0⟩
        [(0, 0, 1)] := by
  refine ⟨?_, glove_batch_loss_matches_spec _ _ ?_⟩ <;>
  · intro x hx
    simp only [List.mem_singleton] at hx
    subst hx
    norm_num

/-- C4: NaiveCustomRNN.forward returns the pair (O, H2) given by the
textbook Elman formulas H2 = tanh(X * W_xh + H * W_hh + b_h) and
O = H2 * W_hq + b_q. -/
theorem naive_rnn_forward_textbook {ni nh batch : ℕ}
    (m : RNN.NaiveCustomRNN ni nh) (X : Matrix (Fin batch) (Fin ni) ℝ)
    (H : Matrix (Fin batch) (Fin nh) ℝ) :
    m.forward X (some H) =
      (RNN.elmanOut m (RNN.elmanHidden m X H), RNN.elmanHidden m X H) := rfl

/-- C7: the GloVe script serializes to the plain-text file "glove.vec" one
embedding vector per vocabulary token, and each vector is the elementwise
sum of the word-embedding row and the context-embedding row of that
token. -/
theorem glove_serialize_combined (model : Glove.GloveModel)
    (vocab : List String) :
    (Glove.gloveSerialize model vocab).1 = "glove.vec" ∧
    (Glove.gloveSerialize model vocab).2.length = vocab.length ∧
    ∀ i : Fin vocab.length,
      (Glove.gloveSerialize model vocab).2.getD i ("", []) =
        (vocab.get i,
          List.zipWith (fun a b => a + b) (model.w_embeddings i)
            (model.c_embeddings i)) := by
  refine ⟨rfl, ?_, ?_⟩
  · simp [Glove.gloveSerialize, Glove.save_pretrained]
  · intro i
    simp [Glove.gloveSerialize, Glove.save_pretrained, List.getD,
      List.getElem?_map, List.getElem?_range, i.isLt,
      List.getD_eq_getElem?_getD, List.getElem?_eq_getElem]

/-- C10: for both RNNCell.forward and NaiveCustomRNN.forward, passing
hx = None is the same as passing the all-zeros hidden state of shape
(batch, hidden_size). -/
theorem forward_none_eq_zeros :
    (∀ (cell : RNN.RNNCell) (input : RNN.Tensor2),
      cell.forward input none =
        cell.forward input (some (RNN.zeros input.rows cell.hidden_size))) ∧
    (∀ (ni nh batch : ℕ) (m : RNN.NaiveCustomRNN ni nh)
      (X : Matrix (Fin batch) (Fin ni) ℝ),
      m.forward X none = m.forward X (some 0)) :=
  ⟨fun _ _ => rfl, fun _ _ _ _ _ => rfl⟩

/-- C6: with a provided hidden state, RNNCell.forward raises a shape
RuntimeError exactly when the input width differs from input_size, or the
hidden batch differs from the input batch, or the hidden width differs from
hidden_size; under the three equalities no shape error is raised. -/
theorem rnncell_shape_error_iff (cell : RNN.RNNCell)
    (input hx : RNN.Tensor2) :
    (∃ e, cell.forward input (some hx) = Except.error e ∧
        e.isShape = true) ↔
      (input.cols ≠ cell.input_size ∨ hx.rows ≠ input.rows ∨
        hx.cols ≠ cell.hidden_size) := by
  by_cases h1 : input.cols = cell.input_size
  · by_cases h2 : hx.rows = input.rows
    · by_cases h3 : hx.cols = cell.hidden_size
      · rw [RNN.forward_ok_shapes cell input hx h1 h2 h3]
        constructor
        · rintro ⟨e, he, hs⟩
          split_ifs at he with ht hr
          rw [Except.error.injEq] at he
          subst he
          simp [RNN.RNNError.isShape] at hs
        · rintro (h | h | h) <;> simp_all
      · constructor
        · intro _; exact Or.inr (Or.inr h3)
        · intro _
          exact ⟨_, RNN.forward_err_hsize cell input hx h1 h2.symm h3, rfl⟩
    · constructor
      · intro _; exact Or.inr (Or.inl h2)
      · intro _
        exact ⟨_, RNN.forward_err_batch cell input hx h1
          (fun h => h2 h.symm), rfl⟩
  · constructor
    · intro _; exact Or.inl h1
    · intro _
      exact ⟨_, RNN.forward_err_input cell input (some hx) h1, rfl⟩

/-- C5: with valid shapes, RNNCell.forward raises the RuntimeError naming
the unknown nonlinearity exactly when the nonlinearity string is neither
"tanh" nor "relu", and otherwise dispatches to RNNTanhCell resp.
RNNReLUCell; _get_activation_fn returns F.relu for "relu", F.tanh for
"tanh", and raises RuntimeError on every other string. -/
theorem rnncell_nonlinearity_dispatch (cell : RNN.RNNCell)
    (input hx : RNN.Tensor2) (h1 : input.cols = cell.input_size)
    (h2 : hx.rows = input.rows) (h3 : hx.cols = cell.hidden_size) :
    ((cell.forward input (some hx) =
        Except.error (.unknownNonlinearity cell.nonlinearity)) ↔
      (cell.nonlinearity ≠ "tanh" ∧ cell.nonlinearity ≠ "relu")) ∧
    (cell.nonlinearity = "tanh" →
      cell.forward input (some hx) =
        Except.ok (RNN.RNNTanhCell input hx cell.weight_ih cell.weight_hh
          cell.bias_ih cell.bias_hh)) ∧
    (cell.nonlinearity = "relu" →
      cell.forward input (some hx) =
        Except.ok (RNN.RNNReLUCell input hx cell.weight_ih cell.weight_hh
          cell.bias_ih cell.bias_hh)) ∧
    RNN._get_activation_fn "relu" = Except.ok RNN.reluFn ∧
    RNN._get_activation_fn "tanh" = Except.ok RNN.tanhFn ∧
    (∀ s, s ≠ "relu" → s ≠ "tanh" →
      RNN._get_activation_fn s =
        Except.error ("activation should be relu/tanh, not " ++ s)) := by
  rw [RNN.forward_ok_shapes cell input hx h1 h2 h3]
  refine ⟨?_, ?_, ?_, rfl, rfl, ?_⟩
  · constructor
    · intro he
      split_ifs at he with ht hr <;> simp_all
    · rintro ⟨ht, hr⟩
      rw [if_neg ht, if_neg hr]
  · intro ht; rw [if_pos ht]
  · intro hr
    rw [if_neg (by simp [hr]), if_pos hr]
  · intro s hr ht
    simp [RNN._get_activation_fn, hr, ht]

/-- A concrete 1 x 1 zero tensor used by the dispatch witness. -/
noncomputable def t2zero : RNN.Tensor2 := ⟨1, 1, fun _ _ => 0⟩

/-- A concrete RNNCell with nonlinearity "tanh" used by the dispatch
witness. -/
noncomputable def cellTanh : RNN.RNNCell :=
  ⟨1, 1, "tanh", t2zero, t2zero, none, none⟩

/-- Witness for C5 at a concrete well-shaped cell. -/
theorem rnncell_nonlinearity_dispatch_witness :
    cellTanh.forward t2zero (some t2zero) =
      Except.ok (RNN.RNNTanhCell t2zero t2zero cellTanh.weight_ih
        cellTanh.weight_hh cellTanh.bias_ih cellTanh.bias_hh) :=
  (rnncell_nonlinearity_dispatch cellTanh t2zero t2zero rfl rfl rfl).2.1 rfl

namespace Seq2Seq

variable {Src EncOut Token Hidden Pred : Type} [Inhabited Token]
variable (dec : Token → Hidden → Hidden → Pred × Hidden) (amax : Pred → Token)
variable (context : Hidden) (trg : List Token) (tfProb : ℚ) (draws : ℕ → ℚ)

/-- The call log accumulated by folding the loop body is the call trace. -/
lemma foldl_rnnStep_calls :
    ∀ (ts : List ℕ) (st : DecState Token Hidden Pred),
      (ts.foldl (rnnStep dec amax context trg tfProb draws) st).calls =
        st.calls ++
          callTrace dec amax context trg tfProb draws ts (st.input, st.hidden) := by
  intro ts
  induction ts with
  | nil => intro st; simp [callTrace]
  | cons t ts ih =>
    intro st
    rw [List.foldl_cons, ih]
    simp [rnnStep, callTrace]

/-- One call is made per loop index. -/
lemma callTrace_length :
    ∀ (ts : List ℕ) (p : Token × Hidden),
      (callTrace dec amax context trg tfProb draws ts p).length = ts.length := by
  intro ts
  induction ts with
  | nil => intro p; simp [callTrace]
  | cons t ts ih => intro p; simp [callTrace, ih]

/-- Every logged call passes the context as its third argument. -/
lemma callTrace_context :
    ∀ (ts : List ℕ) (p : Token × Hidden) (c : Token × Hidden × Hidden),
      c ∈ callTrace dec amax context trg tfProb draws ts p → c.2.2 = context := by
  intro ts
  induction ts with
  | nil => intro p c hc; simp [callTrace] at hc
  | cons t ts ih =>
    intro p c hc
    simp only [callTrace, List.mem_cons] at hc
    rcases hc with rfl | hc
    · rfl
    · exact ih _ _ hc

/-- The first logged call takes the starting input and hidden state. -/
lemma callTrace_head (t : ℕ) (ts : List ℕ) (p : Token × Hidden) :
    (callTrace dec amax context trg tfProb draws (t :: ts) p).head? =
      some (p.1, p.2, context) := rfl

/-- The input of each logged call after the first is the teacher-forcing
choice computed from the draw of the previous step and the prediction of
the previous call. -/
lemma callTrace_chain :
    ∀ (n t : ℕ) (p : Token × Hidden) (i : ℕ), i + 1 < n →
      ((callTrace dec amax context trg tfProb draws
          (List.range' t n) p).get? (i + 1)).map Prod.fst =
        ((callTrace dec amax context trg tfProb draws
            (List.range' t n) p).get? i).map
          (fun c => if draws (t + i) < tfProb then trg.getD (t + i) default
            else amax (dec c.1 c.2.1 context).1) := by
  intro n
  induction n with
  | zero => intro t p i h; exact absurd h (Nat.not_lt_zero _)
  | succ m ih =>
    intro t p i h
    rw [show List.range' t (m + 1) = t :: List.range' (t + 1) m from rfl]
    cases i with
    | zero =>
      obtain ⟨m', rfl⟩ : ∃ m', m = m' + 1 := ⟨m - 1, by omega⟩
      rw [show List.range' (t + 1) (m' + 1) =
        (t + 1) :: List.range' (t + 2) m' from rfl]
      simp [callTrace]
    | succ j =>
      have harith : t + (j + 1) = (t + 1) + j := by omega
      simp only [callTrace, List.get?_cons_succ]
      rw [harith]
      exact ih (t + 1) _ j (by omega)

/-- The call log of forwardTrace is the call trace over steps
1 .. trg_len - 1 started at (trg[0], context). -/
lemma forwardTrace_calls (encoder : Src → EncOut × Hidden) (zeroP : Pred)
    (src : Src) :
    (forwardTrace encoder dec amax zeroP src trg tfProb draws).calls =
      callTrace dec amax ((encoder src).2) trg tfProb draws
        (List.range' 1 (trg.length - 1))
        (trg.headD default, (encoder src).2) := by
  unfold forwardTrace
  rw [foldl_rnnStep_calls]
  simp

/-- Setting a nonzero index leaves slot 0 of a list unchanged. -/
lemma get?_zero_set {α : Type} (l : List α) (t : ℕ) (x : α) (h : t ≠ 0) :
    (l.set t x).get? 0 = l.get? 0 := by
  cases l with
  | nil => simp
  | cons a l =>
    cases t with
    | zero => exact absurd rfl h
    | succ t => rfl

/-- Folding the loop body over nonzero indices never touches slot 0 of the
outputs tensor. -/
lemma foldl_rnnStep_outputs_zero :
    ∀ (ts : List ℕ) (st : DecState Token Hidden Pred), (∀ t ∈ ts, t ≠ 0) →
      (ts.foldl (rnnStep dec amax context trg tfProb draws) st).outputs.get? 0 =
        st.outputs.get? 0 := by
  intro ts
  induction ts with
  | nil => intro st _; rfl
  | cons t ts ih =>
    intro st h
    rw [List.foldl_cons, ih _ (fun x hx => h x (List.mem_cons_of_mem _ hx))]
    exact get?_zero_set _ _ _ (h t (List.mem_cons_self _ _))

/-- Members of range' are at least the start. -/
lemma mem_range'_lb : ∀ (n s t : ℕ), t ∈ List.range' s n → s ≤ t := by
  intro n
  induction n with
  | zero => intro s t h; simp [List.range'] at h
  | succ m ih =>
    intro s t h
    rw [show List.range' s (m + 1) = s :: List.range' (s + 1) m from rfl] at h
    rcases List.mem_cons.1 h with h | h
    · omega
    · exact Nat.le_of_succ_le (ih (s + 1) t h)

/-- Slot 0 of the outputs of forwardTrace keeps its initial value. -/
lemma forwardTrace_outputs_zero (encoder : Src → EncOut × Hidden)
    (zeroP : Pred) (src : Src) :
    (forwardTrace encoder dec amax zeroP src trg tfProb draws).outputs.get? 0 =
      (List.replicate trg.length zeroP).get? 0 := by
  unfold forwardTrace
  exact foldl_rnnStep_outputs_zero dec amax _ trg tfProb draws
    (List.range' 1 (trg.length - 1)) _
    (fun t ht => by have := mem_range'_lb _ _ _ ht; omega)

/-- Generic congruence for foldl with pointwise equal step functions. -/
lemma foldl_congr_fun {σ α : Type} (f g : σ → α → σ)
    (h : ∀ s a, f s a = g s a) :
    ∀ (l : List α) (s : σ), l.foldl f s = l.foldl g s := by
  intro l
  induction l with
  | nil => intro s; rfl
  | cons a l ih => intro s; rw [List.foldl_cons, List.foldl_cons, h, ih]

end Seq2Seq

/-- C2: RNNSeq2Seq.forward initialises the decoder hidden state to the
final hidden state of the encoder (the context vector), and passes that
same unmodified context vector to the decoder at each of the trg_len - 1
decoding steps. -/
theorem seq2seq_context_constant {Src EncOut Token Hidden Pred : Type}
    [Inhabited Token] (encoder : Src → EncOut × Hidden)
    (dec : Token → Hidden → Hidden → Pred × Hidden) (amax : Pred → Token)
    (zeroP : Pred) (src : Src) (trg : List Token) (tfProb : ℚ)
    (draws : ℕ → ℚ) :
    (Seq2Seq.forwardTrace encoder dec amax zeroP src trg tfProb
        draws).calls.length = trg.length - 1 ∧
    (∀ c ∈ (Seq2Seq.forwardTrace encoder dec amax zeroP src trg tfProb
        draws).calls, c.2.2 = (encoder src).2) ∧
    (2 ≤ trg.length →
      (Seq2Seq.forwardTrace encoder dec amax zeroP src trg tfProb
          draws).calls.head? =
        some (trg.headD default, (encoder src).2, (encoder src).2)) := by
  rw [Seq2Seq.forwardTrace_calls]
  refine ⟨?_, ?_, ?_⟩
  · rw [Seq2Seq.callTrace_length, List.length_range']
  · intro c hc
    exact Seq2Seq.callTrace_context dec amax _ trg tfProb draws _ _ _ hc
  · intro h2
    obtain ⟨m, hm⟩ : ∃ m, trg.length - 1 = m + 1 := ⟨trg.length - 2, by omega⟩
    rw [hm, show List.range' 1 (m + 1) = 1 :: List.range' 2 m from rfl]
    exact Seq2Seq.callTrace_head dec amax _ trg tfProb draws 1 _ _

/-- Encoder fixture for the sequence-to-sequence witnesses. -/
def wEnc : ℕ → ℕ × ℕ := fun s => (s, s + 1)

/-- Decoder fixture for the sequence-to-sequence witnesses. -/
def wDec : ℕ → ℕ → ℕ → ℕ × ℕ := fun a b c => (a + 2 * b + 3 * c, b + 1)

/-- Argmax fixture for the sequence-to-sequence witnesses. -/
def wAmax : ℕ → ℕ := fun p => p % 5

/-- Target-sequence fixture for the sequence-to-sequence witnesses. -/
def wTrg : List ℕ := [3, 4, 5, 6]

/-- Random-draw fixture for the sequence-to-sequence witnesses. -/
def wDraws : ℕ → ℚ := fun n => if n = 1 then 0 else 1

/-- Witness for C2 at a concrete instantiation with trg_len = 4. -/
theorem seq2seq_context_constant_witness :
    2 ≤ wTrg.length ∧
    (Seq2Seq.forwardTrace wEnc wDec wAmax 0 0 wTrg (1 / 2)
        wDraws).calls.head? =
      some (wTrg.headD default, (wEnc 0).2, (wEnc 0).2) :=
  ⟨by decide,
    (seq2seq_context_constant wEnc wDec wAmax 0 0 wTrg (1 / 2) wDraws).2.2
      (by decide)⟩

/-- C3: at each decoding step t of RNNSeq2Seq.forward that is followed by
another step, the input of the next decoder call is the ground-truth token
trg[t] when the draw of step t is strictly below teacher_forcing_ratio, and
the argmax of the prediction of step t otherwise.  Call index i corresponds
to step i + 1. -/
theorem seq2seq_teacher_forcing_step {Src EncOut Token Hidden Pred : Type}
    [Inhabited Token] (encoder : Src → EncOut × Hidden)
    (dec : Token → Hidden → Hidden → Pred × Hidden) (amax : Pred → Token)
    (zeroP : Pred) (src : Src) (trg : List Token) (tfProb : ℚ)
    (draws : ℕ → ℚ) (i : ℕ)
    (h : i + 1 < (Seq2Seq.forwardTrace encoder dec amax zeroP src trg tfProb
      draws).calls.length) :
    ((Seq2Seq.forwardTrace encoder dec amax zeroP src trg tfProb
        draws).calls.get? (i + 1)).map Prod.fst =
      ((Seq2Seq.forwardTrace encoder dec amax zeroP src trg tfProb
          draws).calls.get? i).map
        (fun c => if draws (i + 1) < tfProb then trg.getD (i + 1) default
          else amax (dec c.1 c.2.1 ((encoder src).2)).1) := by
  rw [Seq2Seq.forwardTrace_calls] at h ⊢
  rw [Seq2Seq.callTrace_length, List.length_range'] at h
  have hch := Seq2Seq.callTrace_chain dec amax ((encoder src).2) trg tfProb
    draws (trg.length - 1) 1 (trg.headD default, (encoder src).2) i h
  rw [Nat.add_comm 1 i] at hch
  exact hch

/-- Witness for C3 at call index 0 (step 1) of a concrete run. -/
theorem seq2seq_teacher_forcing_step_witness :
    (0 : ℕ) + 1 < (Seq2Seq.forwardTrace wEnc wDec wAmax 0 0 wTrg (1 / 2)
      wDraws).calls.length ∧
    ((Seq2Seq.forwardTrace wEnc wDec wAmax 0 0 wTrg (1 / 2)
        wDraws).calls.get? (0 + 1)).map Prod.fst =
      ((Seq2Seq.forwardTrace wEnc wDec wAmax 0 0 wTrg (1 / 2)
          wDraws).calls.get? 0).map
        (fun c => if wDraws (0 + 1) < 1 / 2 then wTrg.getD (0 + 1) default
          else wAmax (wDec c.1 c.2.1 ((wEnc 0).2)).1) :=
  ⟨by decide,
    seq2seq_teacher_forcing_step wEnc wDec wAmax 0 0 wTrg (1 / 2) wDraws 0
      (by decide)⟩

/-- C8: the first time-slice of the tensor returned by RNNSeq2Seq.forward
is never written by the decoding loop (which starts at t = 1), so it keeps
its zero initialisation. -/
theorem seq2seq_outputs_head_zero {Src EncOut Token Hidden Pred : Type}
    [Inhabited Token] (encoder : Src → EncOut × Hidden)
    (dec : Token → Hidden → Hidden → Pred × Hidden) (amax : Pred → Token)
    (zeroP : Pred) (src : Src) (trg : List Token) (tfProb : ℚ)
    (draws : ℕ → ℚ) (h : 1 ≤ trg.length) :
    (Seq2Seq.forward encoder dec amax zeroP src trg tfProb draws).get? 0 =
      some zeroP := by
  show (Seq2Seq.forwardTrace encoder dec amax zeroP src trg tfProb
    draws).outputs.get? 0 = some zeroP
  rw [Seq2Seq.forwardTrace_outputs_zero]
  obtain ⟨m, hm⟩ : ∃ m, trg.length = m + 1 := ⟨trg.length - 1, by omega⟩
  rw [hm]
  rfl

/-- Witness for C8 at the concrete run with trg_len = 4. -/
theorem seq2seq_outputs_head_zero_witness :
    1 ≤ wTrg.length ∧
    (Seq2Seq.forward wEnc wDec wAmax 0 0 wTrg (1 / 2) wDraws).get? 0 =
      some 0 :=
  ⟨by decide,
    seq2seq_outputs_head_zero wEnc wDec wAmax 0 0 wTrg (1 / 2) wDraws
      (by decide)⟩

/-- C9: when teacher_forcing_ratio >= 1, two runs of RNNSeq2Seq.forward on
the same src and trg with different draw sequences in [0, 1) coincide and
every decoder input after the first is the ground-truth token; when
teacher_forcing_ratio <= 0 the two runs also coincide and every decoder
input after the first is the argmax of the previous prediction. -/
theorem seq2seq_forcing_extremes {Src EncOut Token Hidden Pred : Type}
    [Inhabited Token] (encoder : Src → EncOut × Hidden)
    (dec : Token → Hidden → Hidden → Pred × Hidden) (amax : Pred → Token)
    (zeroP : Pred) (src : Src) (trg : List Token) (tfProb : ℚ)
    (d1 d2 : ℕ → ℚ) (h1 : ∀ n, 0 ≤ d1 n ∧ d1 n < 1)
    (h2 : ∀ n, 0 ≤ d2 n ∧ d2 n < 1) :
    (1 ≤ tfProb →
      Seq2Seq.forwardTrace encoder dec amax zeroP src trg tfProb d1 =
        Seq2Seq.forwardTrace encoder dec amax zeroP src trg tfProb d2 ∧
      ∀ i, i + 1 < (Seq2Seq.forwardTrace encoder dec amax zeroP src trg
          tfProb d1).calls.length →
        ((Seq2Seq.forwardTrace encoder dec amax zeroP src trg tfProb
            d1).calls.get? (i + 1)).map Prod.fst =
          some (trg.getD (i + 1) default)) ∧
    (tfProb ≤ 0 →
      Seq2Seq.forwardTrace encoder dec amax zeroP src trg tfProb d1 =
        Seq2Seq.forwardTrace encoder dec amax zeroP src trg tfProb d2 ∧
      ∀ i, i + 1 < (Seq2Seq.forwardTrace encoder dec amax zeroP src trg
          tfProb d1).calls.length →
        ((Seq2Seq.forwardTrace encoder dec amax zeroP src trg tfProb
            d1).calls.get? (i + 1)).map Prod.fst =
          ((Seq2Seq.forwardTrace encoder dec amax zeroP src trg tfProb
              d1).calls.get? i).map
            (fun c => amax (dec c.1 c.2.1 ((encoder src).2)).1)) := by
  constructor
  · intro htf
    constructor
    · have hstep : ∀ (st : Seq2Seq.DecState Token Hidden Pred) (t : ℕ),
          Seq2Seq.rnnStep dec amax ((encoder src).2) trg tfProb d1 st t =
            Seq2Seq.rnnStep dec amax ((encoder src).2) trg tfProb d2 st t := by
        intro st t
        simp only [Seq2Seq.rnnStep]
        rw [if_pos (lt_of_lt_of_le (h1 t).2 htf),
          if_pos (lt_of_lt_of_le (h2 t).2 htf)]
      exact Seq2Seq.foldl_congr_fun _ _ hstep _ _
    · intro i hi
      rw [Seq2Seq.forwardTrace_calls] at hi ⊢
      rw [Seq2Seq.callTrace_length, List.length_range'] at hi
      have hch := Seq2Seq.callTrace_chain dec amax ((encoder src).2) trg
        tfProb d1 (trg.length - 1) 1 (trg.headD default, (encoder src).2) i hi
      have hlen : i < (Seq2Seq.callTrace dec amax ((encoder src).2) trg
          tfProb d1 (List.range' 1 (trg.length - 1))
          (trg.headD default, (encoder src).2)).length := by
        rw [Seq2Seq.callTrace_length, List.length_range']
        omega
      rw [hch, List.get?_eq_get hlen]
      simp only [Option.map_some']
      rw [if_pos (lt_of_lt_of_le (h1 (1 + i)).2 htf), Nat.add_comm 1 i]
  · intro htf
    constructor
    · have hstep : ∀ (st : Seq2Seq.DecState Token Hidden Pred) (t : ℕ),
          Seq2Seq.rnnStep dec amax ((encoder src).2) trg tfProb d1 st t =
            Seq2Seq.rnnStep dec amax ((encoder src).2) trg tfProb d2 st t := by
        intro st t
        simp only [Seq2Seq.rnnStep]
        rw [if_neg (not_lt.mpr (le_trans htf (h1 t).1)),
          if_neg (not_lt.mpr (le_trans htf (h2 t).1))]
      exact Seq2Seq.foldl_congr_fun _ _ hstep _ _
    · intro i hi
      rw [Seq2Seq.forwardTrace_calls] at hi ⊢
      rw [Seq2Seq.callTrace_length, List.length_range'] at hi
      have hch := Seq2Seq.callTrace_chain dec amax ((encoder src).2) trg
        tfProb d1 (trg.length - 1) 1 (trg.headD default, (encoder src).2) i hi
      rw [hch]
      congr 1
      funext c
      rw [if_neg (not_lt.mpr (le_trans htf (h1 (1 + i)).1))]

/-- Witness for C9: at ratio 1, the trace is independent of the draws. -/
theorem seq2seq_forcing_extremes_witness :
    Seq2Seq.forwardTrace wEnc wDec wAmax 0 0 wTrg 1 (fun _ => 0) =
      Seq2Seq.forwardTrace wEnc wDec wAmax 0 0 wTrg 1 (fun _ => 1 / 2) :=
  ((seq2seq_forcing_extremes wEnc wDec wAmax 0 0 wTrg 1 (fun _ => 0)
      (fun _ => 1 / 2) (fun _ => ⟨le_refl 0, by norm_num⟩)
      (fun _ => ⟨by norm_num, by norm_num⟩)).1 (le_refl 1)).1
